import Mathlib

/-!
Shallow embedding of gokiq's `worker.go` (a Sidekiq-compatible background
job worker).  Pure functions of the source become Lean functions; the
Redis side effects become explicit lists of `StoreOp` values; the values
`time.Now()` and `rand.Intn`/`rand.Perm` produce are passed in as
parameters.  Go `float64` wire numbers are modelled as exact rationals.
-/

namespace Gokiq

/-- JSON values, as `encoding/json` decodes them into `interface{}`. -/
inductive JsonValue where
  | null
  | bool (b : Bool)
  | num (q : ℚ)
  | str (s : String)
  | arr (l : List JsonValue)
  | obj (l : List (String × JsonValue))

/-- The wire `retry` field of a job envelope: `encoding/json` decodes it
into `interface{}`, so it is a JSON number (`float64`), a JSON boolean,
absent/null (`nil`), or any other JSON value. -/
inductive RetryWire where
  | num (q : ℚ)
  | flag (b : Bool)
  | absent
  | other
deriving DecidableEq

/-- The `Job` struct of `worker.go`.  `json:"-"` fields (`MaxRetries`,
`StartTime`) are transient; `StartTime` is only used for duration logging
and is not modelled. -/
structure Job where
  Typ          : String                  -- `Type string json:"class"`
  Args         : Option (List JsonValue) -- `Args []interface{} json:"args"`; `none` = nil slice
  Queue        : String                  -- `json:"queue,omitempty"`
  ID           : String                  -- `json:"jid"`
  Retry        : RetryWire               -- `Retry interface{} json:"retry"`
  MaxRetries   : Int                     -- `json:"-"`
  RetryCount   : Int                     -- `json:"retry_count"`
  ErrorMessage : String                  -- `json:"error_message,omitempty"`
  ErrorType    : String                  -- `json:"error_class,omitempty"`
  RetriedAt    : String                  -- `json:"retried_at,omitempty"`
  FailedAt     : String                  -- `json:"failed_at,omitempty"`

/-- A JSON job envelope at the object level: each wire field is `none`
when the key is absent (for `interface{}`-typed and string fields a JSON
`null` decodes identically to an absent key, so both are `none`).
There are no `max_retries` or start-time keys: the `json:"-"` tags
exclude the transient attributes from the wire format. -/
structure Envelope where
  eclass        : Option String
  args          : Option (List JsonValue)
  queue         : Option String
  jid           : Option String
  retry         : RetryWire
  retry_count   : Option Int
  error_message : Option String
  error_class   : Option String
  retried_at    : Option String
  failed_at     : Option String

def defaultMaxRetries : Int := 25

def TimestampFormat : String := "2006-01-02 15:04:05 MST"

/-- Go's `int(x)` conversion on `float64` truncates toward zero. -/
def goTrunc (q : ℚ) : Int := if 0 ≤ q then ⌊q⌋ else ⌈q⌉

/-- `Job.FromJSON` on a freshly allocated `&Job{}` (as the dispatcher
does): `json.Unmarshal` fills the wire fields (absent keys leave Go zero
values), then the polymorphic `retry` value is normalized into
`MaxRetries`: a `float64` is converted with `int(...)`; `false` leaves
`MaxRetries` untouched (zero); everything else — `true`, `nil`, or any
non-bool non-number — sets the default. -/
def parseJob (e : Envelope) : Job :=
  let j : Job :=
    { Typ          := e.eclass.getD ""
      Args         := e.args
      Queue        := e.queue.getD ""
      ID           := e.jid.getD ""
      Retry        := e.retry
      MaxRetries   := 0
      RetryCount   := e.retry_count.getD 0
      ErrorMessage := e.error_message.getD ""
      ErrorType    := e.error_class.getD ""
      RetriedAt    := e.retried_at.getD ""
      FailedAt     := e.failed_at.getD "" }
  match e.retry with
  | .num q => { j with MaxRetries := goTrunc q }
  | .flag false => j
  | _ => { j with MaxRetries := defaultMaxRetries }

/-- `Job.JSON` = `json.Marshal`: every field not tagged `json:"-"` is
emitted; `omitempty` fields are dropped at their zero value; `args`,
`retry`, `retry_count`, `class` and `jid` carry no `omitempty` and are
always emitted. -/
def serializeJob (j : Job) : Envelope :=
  { eclass        := some j.Typ
    args          := j.Args
    queue         := if j.Queue = "" then none else some j.Queue
    jid           := some j.ID
    retry         := j.Retry
    retry_count   := some j.RetryCount
    error_message := if j.ErrorMessage = "" then none else some j.ErrorMessage
    error_class   := if j.ErrorType = "" then none else some j.ErrorType
    retried_at    := if j.RetriedAt = "" then none else some j.RetriedAt
    failed_at     := if j.FailedAt = "" then none else some j.FailedAt }

/-- Equality on the persisted (wire) fields of two jobs: everything the
envelope carries; the transient `MaxRetries` (recomputed at parse time)
is excluded. -/
def wireEq (a b : Job) : Prop :=
  a.Typ = b.Typ ∧ a.Args = b.Args ∧ a.Queue = b.Queue ∧ a.ID = b.ID ∧
  a.Retry = b.Retry ∧ a.RetryCount = b.RetryCount ∧
  a.ErrorMessage = b.ErrorMessage ∧ a.ErrorType = b.ErrorType ∧
  a.RetriedAt = b.RetriedAt ∧ a.FailedAt = b.FailedAt

/-- `WorkerConfig.nsKey`: prefix the configured namespace when non-empty. -/
def nsKey (ns key : String) : String :=
  if ns ≠ "" then ns ++ ":" ++ key else key

/-- A Go `error` value, reduced to what the worker observes of it:
`fmt.Sprintf("%T", err)` and `err.Error()`. -/
structure GoError where
  typeName : String
  message  : String
deriving DecidableEq

/-- `UnknownWorkerError{Type}`: its `%T` and its `Error()` string. -/
def unknownWorkerError (t : String) : GoError :=
  { typeName := "gokiq.UnknownWorkerError"
    message  := "gokiq: Unknown worker type: " ++ t }

/-- The error `fmt.Errorf(s)` builds from a plain string (format-verb
expansion aside, its message is the string itself). -/
def errorString (s : String) : GoError :=
  { typeName := "*errors.errorString", message := s }

/-- A value stored into Redis by the modelled writes: a plain string or a
serialized job envelope. -/
inductive StoreVal where
  | str (s : String)
  | env (e : Envelope)

/-- The Redis write commands the worker issues, at the level the claims
talk about. -/
inductive StoreOp where
  | sadd  (key : String) (v : StoreVal)
  | srem  (key : String) (v : StoreVal)
  | rpush (key : String) (v : StoreVal)
  | zadd  (key : String) (score : ℚ) (v : StoreVal)
  | del   (key : String)
  | incr  (key : String)
  | setex (key : String) (ttl : Int) (v : StoreVal)

/-- `retryDelay` (worker.go): `math.Pow(float64(count), 4) + 15 +
float64(rand.Intn(30)) * (float64(count)+1)`, with the draw of
`rand.Intn(30)` passed in as `r`.  All quantities are integral, so the
float64 arithmetic is exact and is modelled over ℤ. -/
def retryDelay (count r : Int) : Int :=
  count ^ 4 + 15 + r * (count + 1)

/-- `WorkerConfig.scheduleRetry`, as a pure function of the job, the
error, the formatted current time `now` (the code computes
`time.Now().UTC().Format(TimestampFormat)`), the current epoch seconds
(`currentTimeFloat()`) and the jitter draw `r`.  Returns the mutated job
and the store write it issues, if any. -/
def scheduleRetry (ns : String) (job : Job) (err : GoError) (now : String)
    (epochSeconds : ℚ) (r : Int) : Job × Option StoreOp :=
  let j1 := if job.FailedAt = "" then { job with FailedAt := now }
            else { job with RetryCount := job.RetryCount + 1 }
  let j2 := if 0 < j1.RetryCount then { j1 with RetriedAt := now } else j1
  if j2.RetryCount < j2.MaxRetries then
    let j3 := { j2 with ErrorType := err.typeName, ErrorMessage := err.message }
    (j3, some (.zadd (nsKey ns "retry")
                 (epochSeconds + (retryDelay j3.RetryCount r : ℚ))
                 (.env (serializeJob j3))))
  else
    (j2, none)

/-- `WorkerConfig.logJobFinish`: the single MULTI/EXEC transaction it
sends, as the ordered list of commands. -/
def logJobFinish (ns wid : String) (success : Bool) : List StoreOp :=
  [ .srem (nsKey ns "workers") (.str wid)
  , .del (nsKey ns ("worker:" ++ wid ++ ":started"))
  , .del (nsKey ns ("worker:" ++ wid))
  , .incr (nsKey ns "stat:processed") ]
  ++ (if !success then [.incr (nsKey ns "stat:failed")] else [])

/-- A Go panic value as `recover()` hands it to `panicToError`: a string,
an error, or a value of any other dynamic type. -/
inductive GoValue where
  | str (s : String)
  | err (e : GoError)
  | other
deriving DecidableEq

/-- `panicToError`: a string becomes `fmt.Errorf(str)`; otherwise the
code runs the type assertion `err.(error)`, which itself panics when the
value is not an error — modelled as `none`. -/
def panicToError : GoValue → Option GoError
  | .str s => some (errorString s)
  | .err e => some e
  | .other => none

/-- What one `Perform(args)` call does: return nil, return an error, or
panic with some value. -/
inductive PerformOutcome where
  | ok
  | errored (e : GoError)
  | panicked (v : GoValue)

/-- The error the runner's recover-wrapper ends up with: `some none` for
success, `some (some e)` for a returned or trapped error, and `none` when
the trap itself panics (non-string, non-error panic value). -/
def runHandlerResult : PerformOutcome → Option (Option GoError)
  | .ok => some none
  | .errored e => some (some e)
  | .panicked v => (panicToError v).map some

/-- The observable actions of one iteration of `WorkerConfig.worker`. -/
inductive WorkerEvent where
  | retryScheduled (j : Job) (e : GoError)
  | jobStarted (j : Job) (wid : String)
  | jobFinished (j : Job) (wid : String) (success : Bool)

/-- One iteration of the runner loop in `WorkerConfig.worker` for a job
message: unknown class → build `UnknownWorkerError`, call the Retry
Engine and `continue` (no bookkeeping at all); known class → start
bookkeeping, run the handler behind the recover wrapper, call the Retry
Engine on error, and emit finish bookkeeping with `err == nil` — unless
the trap itself panicked, which crashes the goroutine after the start
event. -/
def workerStep (registered : Bool) (wid : String) (job : Job)
    (outcome : PerformOutcome) : List WorkerEvent × Bool :=
  if registered = false then
    ([.retryScheduled job (unknownWorkerError job.Typ)], false)
  else
    match runHandlerResult outcome with
    | none => ([.jobStarted job wid], true)
    | some err =>
        ([.jobStarted job wid]
          ++ (match err with
              | some e => [.retryScheduled job e]
              | none => [])
          ++ [.jobFinished job wid err.isNone], false)

/-- `WorkerConfig.denormalizeQueues`: each configured queue's namespaced
list key, repeated weight-many times. -/
def denormalizeQueues (ns : String) (queues : List (String × Nat)) : List String :=
  queues.flatMap fun qw => List.replicate qw.2 (nsKey ns ("queue:" ++ qw.1))

/-- The dedup-preserving-order loop of `WorkerConfig.queueList`: walk the
drawn indices, skip keys already collected. -/
def queueListGo (rq : List String) : List Nat → List String → List String
  | [], res => res
  | i :: is, res =>
      let q := rq.getD i ""
      if q ∈ res then queueListGo rq is res
      else queueListGo rq is (res ++ [q])

/-- `WorkerConfig.queueList`, with the drawn index list
(`rand.Perm(len(randomQueues))[:len(Queues)]`) passed in. -/
def queueList (rq : List String) (indices : List Nat) : List String :=
  queueListGo rq indices []

/-- One envelope of the scheduler's promotion loop: `none` models bytes
whose `json.Unmarshal` into the queue-extracting struct fails (reported
and skipped, no transaction); a well-formed envelope yields one
MULTI/EXEC transaction `SADD queues <queue>; RPUSH queue:<queue>
<original bytes>` where the queue name is the envelope's own `queue`
field (absent decodes to `""`) and the pushed value is the fetched
envelope itself, never re-serialized. -/
def promoteOne (ns : String) : Option Envelope → Option (List StoreOp)
  | none => none
  | some e =>
      some [ .sadd (nsKey ns "queues") (.str (e.queue.getD ""))
           , .rpush (nsKey ns ("queue:" ++ e.queue.getD "")) (.env e) ]

/-- All transactions one scheduler pass issues for the fetched batch. -/
def schedulerPromotions (ns : String) (msgs : List (Option Envelope)) :
    List (List StoreOp) :=
  msgs.filterMap (promoteOne ns)

/-! ### Fixtures for concrete counterexamples and witnesses -/

/-- A job whose class has no registered handler. -/
def jobMissing : Job :=
  { Typ := "Missing", Args := none, Queue := "default", ID := "b"
    Retry := .flag true, MaxRetries := 25, RetryCount := 0
    ErrorMessage := "", ErrorType := "", RetriedAt := "", FailedAt := "" }

/-- An envelope whose wire `retry` is the negative non-integer −3/2. -/
def envRetryNegHalf : Envelope :=
  { eclass := some "X", args := none, queue := none, jid := some "j1"
    retry := .num (-3/2), retry_count := none, error_message := none
    error_class := none, retried_at := none, failed_at := none }

/-- An envelope whose wire `retry` is the positive non-integer 7/2. -/
def envRetryPosHalf : Envelope :=
  { eclass := some "X", args := none, queue := none, jid := some "j2"
    retry := .num (7/2), retry_count := none, error_message := none
    error_class := none, retried_at := none, failed_at := none }

/-- An envelope sitting in the `retry`/`schedule` set, bound for queue q1. -/
def envForQ1 : Envelope :=
  { eclass := some "Echo", args := some [.num 1, .num 2], queue := some "q1"
    jid := some "a", retry := .flag true, retry_count := some 0
    error_message := none, error_class := none, retried_at := none
    failed_at := none }

/-! ### Helper lemmas -/

theorem getD_if_empty (s : String) : (if s = "" then none else some s).getD "" = s := by
  split <;> simp_all

theorem nsKey_inj (ns : String) {a b : String} (h : nsKey ns a = nsKey ns b) : a = b := by
  unfold nsKey at h
  split at h
  · have hd := congrArg String.data h
    simp only [String.data_append, List.append_assoc] at hd
    exact String.ext (List.append_cancel_left (List.append_cancel_left hd))
  · exact h

theorem nodup_subset_length_le {l l' : List String} (hn : l.Nodup)
    (hs : ∀ x ∈ l, x ∈ l') : l.length ≤ l'.length := by
  calc l.length = l.toFinset.card := (List.toFinset_card_of_nodup hn).symm
    _ ≤ l'.toFinset.card := Finset.card_le_card (fun x hx => by
          simp only [List.mem_toFinset] at *; exact hs x hx)
    _ ≤ l'.length := List.toFinset_card_le l'

theorem queueListGo_nodup (rq : List String) (is : List Nat) :
    ∀ res : List String, res.Nodup → (queueListGo rq is res).Nodup := by
  induction is with
  | nil => intro res h; simpa [queueListGo] using h
  | cons i is ih =>
      intro res h
      simp only [queueListGo]
      by_cases hq : rq.getD i "" ∈ res
      · rw [if_pos hq]; exact ih res h
      · rw [if_neg hq]
        refine ih _ ?_
        generalize rq.getD i "" = q at hq
        simp [List.nodup_append, h, hq]

theorem queueListGo_mem (rq : List String) (is : List Nat) :
    ∀ res : List String, (∀ i ∈ is, i < rq.length) →
      ∀ x ∈ queueListGo rq is res, x ∈ res ∨ x ∈ rq := by
  induction is with
  | nil =>
      intro res _ x hx
      exact Or.inl (by simpa [queueListGo] using hx)
  | cons i is ih =>
      intro res hvalid x hx
      simp only [queueListGo] at hx
      have hi : i < rq.length := hvalid i (by simp)
      have hmem : rq.getD i "" ∈ rq := by
        rw [List.getD_eq_getElem rq "" hi]
        exact List.getElem_mem hi
      have hvalid' : ∀ j ∈ is, j < rq.length := fun j hj => hvalid j (by simp [hj])
      by_cases hq : rq.getD i "" ∈ res
      · rw [if_pos hq] at hx
        exact ih res hvalid' x hx
      · rw [if_neg hq] at hx
        rcases ih _ hvalid' x hx with h1 | h1
        · rcases List.mem_append.mp h1 with h2 | h2
          · exact Or.inl h2
          · simp only [List.mem_singleton] at h2
            subst h2
            exact Or.inr hmem
        · exact Or.inr h1

theorem queueListGo_length (rq : List String) (is : List Nat) :
    ∀ res : List String, res.length ≤ (queueListGo rq is res).length := by
  induction is with
  | nil => intro res; simp [queueListGo]
  | cons i is ih =>
      intro res
      simp only [queueListGo]
      by_cases hq : rq.getD i "" ∈ res
      · rw [if_pos hq]; exact ih res
      · rw [if_neg hq]
        calc res.length ≤ (res ++ [rq.getD i ""]).length := by simp
          _ ≤ _ := ih _

theorem mem_denormalize {ns : String} {queues : List (String × Nat)} {x : String}
    (hx : x ∈ denormalizeQueues ns queues) :
    ∃ qw ∈ queues, x = nsKey ns ("queue:" ++ qw.1) := by
  simp only [denormalizeQueues, List.mem_flatMap] at hx
  obtain ⟨qw, hqw, hrep⟩ := hx
  rw [List.mem_replicate] at hrep
  exact ⟨qw, hqw, hrep.2⟩

/-! ### Claim theorems -/

/-- C1 (counterexample): the claim says a numeric wire `retry` is floored,
but Go's `int(float64)` conversion truncates toward zero: the accepted
envelope with `retry = -3/2` parses to `max_retries = -1`, while
`⌊-3/2⌋ = -2`. -/
theorem C1_counterexample :
    (parseJob envRetryNegHalf).MaxRetries = -1 ∧ ⌊(-3/2 : ℚ)⌋ = -2 := by
  constructor
  · simp [parseJob, envRetryNegHalf, goTrunc]
    norm_num [Int.ceil_eq_iff]
  · norm_num [Int.floor_eq_iff]

/-- C1 (amended): for every envelope accepted by `Job.FromJSON`, the
normalized `max_retries` equals the wire `retry` value truncated toward
zero when that value is numeric (which coincides with its floor whenever
the value is non-negative), 25 when `retry` is `true` or absent, and 0
when `retry` is `false`. -/
theorem C1_max_retries_amended (e : Envelope) (q : ℚ) :
    (e.retry = .num q →
      (parseJob e).MaxRetries = goTrunc q ∧
      (0 ≤ q → (parseJob e).MaxRetries = ⌊q⌋)) ∧
    (e.retry = .flag true → (parseJob e).MaxRetries = 25) ∧
    (e.retry = .absent → (parseJob e).MaxRetries = 25) ∧
    (e.retry = .flag false → (parseJob e).MaxRetries = 0) := by
  refine ⟨fun h => ⟨?_, fun hq => ?_⟩, fun h => ?_, fun h => ?_, fun h => ?_⟩
  · simp [parseJob, h]
  · simp [parseJob, h, goTrunc, if_pos hq]
  · simp [parseJob, h, defaultMaxRetries]
  · simp [parseJob, h, defaultMaxRetries]
  · simp [parseJob, h]

/-- C1 (witness): at the concrete envelope with `retry = 7/2` the amended
claim gives `max_retries = goTrunc (7/2) = ⌊7/2⌋ = 3`. -/
theorem C1_witness :
    (parseJob envRetryPosHalf).MaxRetries = goTrunc (7/2 : ℚ) ∧
    (parseJob envRetryPosHalf).MaxRetries = ⌊(7/2 : ℚ)⌋ :=
  ⟨((C1_max_retries_amended envRetryPosHalf (7/2)).1 rfl).1,
   ((C1_max_retries_amended envRetryPosHalf (7/2)).1 rfl).2 (by norm_num)⟩

/-- C5 (counterexample): the claim says every trapped panic value is
converted to an error and the trap never itself aborts; but for a panic
value that is neither a string nor an error, `panicToError`'s type
assertion `err.(error)` itself panics (modelled as `none`), crashing the
runner after the start event instead of proceeding to bookkeeping. -/
theorem C5_counterexample :
    panicToError GoValue.other = none ∧
    (workerStep true "w0" jobMissing (.panicked .other)).2 = true := by
  constructor
  · rfl
  · simp [workerStep, runHandlerResult, panicToError]

/-- C5 (amended): a trapped panic value that is a string becomes an error
carrying that string as its message, and a trapped error value becomes
that error itself, with the runner proceeding (no crash) in both cases;
a trapped value of any other type makes the conversion itself panic. -/
theorem C5_panic_trap_amended (s : String) (e : GoError) (wid : String) (job : Job) :
    panicToError (.str s) = some (errorString s) ∧
    (errorString s).message = s ∧
    panicToError (.err e) = some e ∧
    panicToError GoValue.other = none ∧
    (workerStep true wid job (.panicked (.str s))).2 = false ∧
    (workerStep true wid job (.panicked (.err e))).2 = false := by
  refine ⟨rfl, rfl, rfl, rfl, ?_, ?_⟩ <;>
    simp [workerStep, runHandlerResult, panicToError]

/-- C6: parsing the serialization of any job yields a job with identical
persisted (wire) fields; the transient attributes are absent from the
`Envelope` type itself (the `json:"-"` tags), so only the wire fields
round-trip. -/
theorem C6_codec_roundtrip (J : Job) : wireEq (parseJob (serializeJob J)) J := by
  obtain ⟨T, A, Q, I, R, M, RC, EM, ET, RA, FA⟩ := J
  cases R with
  | num q => simp [wireEq, parseJob, serializeJob, getD_if_empty]
  | flag b => cases b <;> simp [wireEq, parseJob, serializeJob, getD_if_empty]
  | absent => simp [wireEq, parseJob, serializeJob, getD_if_empty]
  | other => simp [wireEq, parseJob, serializeJob, getD_if_empty]

/-- C7: with the jitter draw `r` of `rand.Intn(30)` (so `0 ≤ r < 30`),
`retryDelay count r = count⁴ + 15 + r·(count+1)` seconds, and for
`count = 0` the delay lies between 15 and 44 inclusive. -/
theorem C7_retryDelay (count r : Int) (_hc : 0 ≤ count) (h0 : 0 ≤ r) (h30 : r < 30) :
    retryDelay count r = count ^ 4 + 15 + r * (count + 1) ∧
    15 ≤ retryDelay 0 r ∧ retryDelay 0 r ≤ 44 := by
  have h : retryDelay 0 r = 15 + r := by norm_num [retryDelay]
  exact ⟨rfl, by omega, by omega⟩

/-- C7 (witness): the bounds at the concrete draw `count = 2`, `r = 7`. -/
theorem C7_witness :
    retryDelay 2 7 = 2 ^ 4 + 15 + 7 * (2 + 1) ∧
    15 ≤ retryDelay 0 7 ∧ retryDelay 0 7 ≤ 44 :=
  C7_retryDelay 2 7 (by norm_num) (by norm_num) (by norm_num)

/-- C2: entering the Retry Engine with empty `failed_at` sets `failed_at`
to the formatted current UTC time (`now` is the
`time.Now().UTC().Format("2006-01-02 15:04:05 MST")` value the code
computes) and leaves `retry_count` unchanged, so a first failure leaves
`retry_count = 0`; with `failed_at` already set it increments
`retry_count`; and `retried_at` is assigned `now` exactly when the
resulting `retry_count` is positive. -/
theorem C2_scheduleRetry_metadata (ns : String) (job : Job) (err : GoError)
    (now : String) (epoch : ℚ) (r : Int) :
    (job.FailedAt = "" →
      (scheduleRetry ns job err now epoch r).1.FailedAt = now ∧
      (scheduleRetry ns job err now epoch r).1.RetryCount = job.RetryCount) ∧
    (job.FailedAt ≠ "" →
      (scheduleRetry ns job err now epoch r).1.RetryCount = job.RetryCount + 1 ∧
      (scheduleRetry ns job err now epoch r).1.FailedAt = job.FailedAt) ∧
    (0 < (scheduleRetry ns job err now epoch r).1.RetryCount →
      (scheduleRetry ns job err now epoch r).1.RetriedAt = now) ∧
    (¬ 0 < (scheduleRetry ns job err now epoch r).1.RetryCount →
      (scheduleRetry ns job err now epoch r).1.RetriedAt = job.RetriedAt) ∧
    (job.FailedAt = "" ∧ job.RetryCount = 0 →
      (scheduleRetry ns job err now epoch r).1.RetryCount = 0) := by
  simp only [scheduleRetry]
  split_ifs <;> simp_all

/-- C2 (witness): a first failure of the concrete job (empty `failed_at`)
stamps `failed_at` and keeps `retry_count` at 0. -/
theorem C2_witness :
    (scheduleRetry "" jobMissing (errorString "boom") "T" 0 3).1.FailedAt = "T" ∧
    (scheduleRetry "" jobMissing (errorString "boom") "T" 0 3).1.RetryCount =
      jobMissing.RetryCount :=
  (C2_scheduleRetry_metadata "" jobMissing (errorString "boom") "T" 0 3).1 rfl

/-- C3: the Retry Engine issues a store write iff the updated
`retry_count` is strictly below `max_retries` (which it never changes);
the only write is `ZADD retry (epochSeconds + retryDelay retry_count)
<re-serialized envelope>` with `error_class`/`error_message` set from the
error; and whenever the incoming `retry_count` is non-negative, every
persisted job satisfies `0 ≤ retry_count ≤ max_retries`. -/
theorem C3_retry_persist (ns : String) (job : Job) (err : GoError)
    (now : String) (epoch : ℚ) (r : Int) :
    ((scheduleRetry ns job err now epoch r).2.isSome ↔
      (scheduleRetry ns job err now epoch r).1.RetryCount <
        (scheduleRetry ns job err now epoch r).1.MaxRetries) ∧
    ((scheduleRetry ns job err now epoch r).1.MaxRetries = job.MaxRetries) ∧
    (∀ op, (scheduleRetry ns job err now epoch r).2 = some op →
      op = StoreOp.zadd (nsKey ns "retry")
            (epoch + (retryDelay (scheduleRetry ns job err now epoch r).1.RetryCount r : ℚ))
            (.env (serializeJob (scheduleRetry ns job err now epoch r).1)) ∧
      (scheduleRetry ns job err now epoch r).1.ErrorType = err.typeName ∧
      (scheduleRetry ns job err now epoch r).1.ErrorMessage = err.message) ∧
    (0 ≤ job.RetryCount → (scheduleRetry ns job err now epoch r).2.isSome →
      0 ≤ (scheduleRetry ns job err now epoch r).1.RetryCount ∧
      (scheduleRetry ns job err now epoch r).1.RetryCount ≤
        (scheduleRetry ns job err now epoch r).1.MaxRetries) := by
  simp only [scheduleRetry]
  split_ifs <;> simp_all <;> omega

/-- C3 (witness): the concrete first failure (retry_count 0, max 25) is
persisted and the stored counters satisfy the invariant. -/
theorem C3_witness :
    (scheduleRetry "" jobMissing (errorString "boom") "T" 0 3).2.isSome ∧
    0 ≤ (scheduleRetry "" jobMissing (errorString "boom") "T" 0 3).1.RetryCount ∧
    (scheduleRetry "" jobMissing (errorString "boom") "T" 0 3).1.RetryCount ≤
      (scheduleRetry "" jobMissing (errorString "boom") "T" 0 3).1.MaxRetries := by
  have h := C3_retry_persist "" jobMissing (errorString "boom") "T" 0 3
  have hs : (scheduleRetry "" jobMissing (errorString "boom") "T" 0 3).2.isSome :=
    h.1.mpr (by decide)
  exact ⟨hs, h.2.2.2 (by decide) hs⟩

/-- C4 (counterexample): a message whose class has no registered handler
does not lead to any "finish" bookkeeping — the unknown-handler branch
calls the Retry Engine and `continue`s, skipping `logJobFinish` (and
`logJobStart`) entirely, contrary to the claim. -/
theorem C4_counterexample :
    ¬ ∃ s, WorkerEvent.jobFinished jobMissing "w0" s ∈
      (workerStep false "w0" jobMissing .ok).1 := by
  rintro ⟨s, hs⟩
  simp [workerStep] at hs

/-- C4 (amended): for every message whose class has a registered handler
and whose handler step completes (returns, or panics with a string or
error value), the runner emits "finish" bookkeeping with
`success = (err == nil)` after the handler step; for a message with no
registered handler the runner only invokes the Retry Engine with
`UnknownWorkerError` and emits no bookkeeping at all. -/
theorem C4_finish_amended (wid : String) (job : Job) (outcome : PerformOutcome)
    (err : Option GoError) :
    (runHandlerResult outcome = some err →
      (workerStep true wid job outcome).1 =
        [WorkerEvent.jobStarted job wid]
          ++ (match err with
              | some e => [WorkerEvent.retryScheduled job e]
              | none => [])
          ++ [WorkerEvent.jobFinished job wid err.isNone]) ∧
    (workerStep false wid job outcome).1 =
      [WorkerEvent.retryScheduled job (unknownWorkerError job.Typ)] := by
  constructor
  · intro h
    simp [workerStep, h]
  · simp [workerStep]

/-- C4 (witness): a successful run of a registered handler emits start
then finish with success = true. -/
theorem C4_witness :
    (workerStep true "w0" jobMissing .ok).1 =
      [WorkerEvent.jobStarted jobMissing "w0",
       WorkerEvent.jobFinished jobMissing "w0" true] := by
  have h := (C4_finish_amended "w0" jobMissing .ok none).1 rfl
  simpa using h

/-- C8: for any draw of the index list
(`rand.Perm(len(randomQueues))[:len(Queues)]`: one index per configured
queue, each valid for the denormalized multiset), the computed queue list
has no duplicate entries, every entry is the namespaced key of a
configured queue, its length is at most the number of distinct configured
queues, and it is non-empty whenever at least one queue is configured. -/
theorem C8_queueList (ns : String) (queues : List (String × Nat)) (indices : List Nat)
    (hlen : indices.length = queues.length)
    (hvalid : ∀ i ∈ indices, i < (denormalizeQueues ns queues).length) :
    (queueList (denormalizeQueues ns queues) indices).Nodup ∧
    (∀ k ∈ queueList (denormalizeQueues ns queues) indices,
        ∃ qw ∈ queues, k = nsKey ns ("queue:" ++ qw.1)) ∧
    (queueList (denormalizeQueues ns queues) indices).length ≤ queues.length ∧
    (queues ≠ [] → queueList (denormalizeQueues ns queues) indices ≠ []) := by
  have hnodup : (queueList (denormalizeQueues ns queues) indices).Nodup :=
    queueListGo_nodup (denormalizeQueues ns queues) indices [] List.nodup_nil
  have hmem : ∀ k ∈ queueList (denormalizeQueues ns queues) indices,
      ∃ qw ∈ queues, k = nsKey ns ("queue:" ++ qw.1) := by
    intro k hk
    rcases queueListGo_mem (denormalizeQueues ns queues) indices [] hvalid k hk with h | h
    · simp at h
    · exact mem_denormalize h
  refine ⟨hnodup, hmem, ?_, ?_⟩
  · have hsub : ∀ k ∈ queueList (denormalizeQueues ns queues) indices,
        k ∈ queues.map (fun qw => nsKey ns ("queue:" ++ qw.1)) := by
      intro k hk
      obtain ⟨qw, hqw, hk'⟩ := hmem k hk
      exact List.mem_map.mpr ⟨qw, hqw, hk'.symm⟩
    have h := nodup_subset_length_le hnodup hsub
    simpa using h
  · intro hne
    cases hi : indices with
    | nil =>
        exfalso
        rw [hi] at hlen
        exact hne (List.eq_nil_of_length_eq_zero hlen.symm)
    | cons i is =>
        intro hempty
        have h1 : 1 ≤ (queueList (denormalizeQueues ns queues) (i :: is)).length := by
          simp only [queueList, queueListGo]
          rw [if_neg (by simp)]
          have h2 := queueListGo_length (denormalizeQueues ns queues) is
            [(denormalizeQueues ns queues).getD i ""]
          simpa using h2
        rw [hempty] at h1
        simp at h1

/-- C8 (witness): two queues `default` (weight 1) and `low` (weight 2)
with the concrete index draw `[1, 0]`. -/
theorem C8_witness :
    (queueList (denormalizeQueues "" [("default", 1), ("low", 2)]) [1, 0]).Nodup ∧
    (∀ k ∈ queueList (denormalizeQueues "" [("default", 1), ("low", 2)]) [1, 0],
        ∃ qw ∈ [("default", 1), ("low", 2)], k = nsKey "" ("queue:" ++ qw.1)) ∧
    (queueList (denormalizeQueues "" [("default", 1), ("low", 2)]) [1, 0]).length ≤
      ([("default", 1), ("low", 2)] : List (String × Nat)).length ∧
    (([("default", 1), ("low", 2)] : List (String × Nat)) ≠ [] →
      queueList (denormalizeQueues "" [("default", 1), ("low", 2)]) [1, 0] ≠ []) :=
  C8_queueList "" [("default", 1), ("low", 2)] [1, 0] (by decide) (by decide)

/-- C9: every transaction the scheduler issues while promoting a fetched
batch comes from a well-formed envelope of that batch and consists,
within the single transaction, of `SADD queues <queue>` with the queue
name taken from the envelope's own `queue` field and `RPUSH
queue:<queue>` of the fetched envelope itself, verbatim (no
re-serialization); malformed envelopes produce no transaction. -/
theorem C9_scheduler_promotion (ns : String) (msgs : List (Option Envelope))
    (tx : List StoreOp) (htx : tx ∈ schedulerPromotions ns msgs) :
    ∃ e, some e ∈ msgs ∧
      tx = [ StoreOp.sadd (nsKey ns "queues") (.str (e.queue.getD ""))
           , StoreOp.rpush (nsKey ns ("queue:" ++ e.queue.getD "")) (.env e) ] := by
  simp only [schedulerPromotions, List.mem_filterMap] at htx
  obtain ⟨m, hm, hp⟩ := htx
  cases m with
  | none => simp [promoteOne] at hp
  | some e =>
      refine ⟨e, hm, ?_⟩
      simp only [promoteOne, Option.some.injEq] at hp
      exact hp.symm

/-- C9 (witness): a batch holding one well-formed envelope bound for
queue `q1` and one malformed entry yields exactly the claimed
transaction for the well-formed envelope. -/
theorem C9_witness :
    ∃ e, some e ∈ [some envForQ1, (none : Option Envelope)] ∧
      [ StoreOp.sadd (nsKey "" "queues") (.str (envForQ1.queue.getD ""))
      , StoreOp.rpush (nsKey "" ("queue:" ++ envForQ1.queue.getD "")) (.env envForQ1) ] =
      [ StoreOp.sadd (nsKey "" "queues") (.str (e.queue.getD ""))
      , StoreOp.rpush (nsKey "" ("queue:" ++ e.queue.getD "")) (.env e) ] :=
  C9_scheduler_promotion "" [some envForQ1, none] _
    (by simp [schedulerPromotions, promoteOne])

/-- C10: the "finish" bookkeeping transaction is exactly `SREM workers
wid; DEL worker:wid:started; DEL worker:wid; INCR stat:processed`
followed by `INCR stat:failed` exactly when `success` is false; in
particular `stat:processed` is always incremented and `stat:failed` is
incremented iff the job failed. -/
theorem C10_logJobFinish (ns wid : String) (success : Bool) :
    logJobFinish ns wid success =
      [ .srem (nsKey ns "workers") (.str wid)
      , .del (nsKey ns ("worker:" ++ wid ++ ":started"))
      , .del (nsKey ns ("worker:" ++ wid))
      , .incr (nsKey ns "stat:processed") ]
      ++ (if success then [] else [StoreOp.incr (nsKey ns "stat:failed")]) ∧
    StoreOp.incr (nsKey ns "stat:processed") ∈ logJobFinish ns wid success ∧
    (StoreOp.incr (nsKey ns "stat:failed") ∈ logJobFinish ns wid success ↔
      success = false) := by
  have hk : nsKey ns "stat:failed" ≠ nsKey ns "stat:processed" := by
    intro h
    exact absurd (nsKey_inj ns h) (by decide)
  cases success <;> simp [logJobFinish, hk]

end Gokiq
